import Mathlib

/-!
Verification of the schema-inference and alignment engine of the
`ml-prediction-explainer` repository (`app/utils/io.py`).

The embedding models a pandas DataFrame as a `Table`: an ordered list of
named columns, each carrying a pandas dtype tag and an ordered list of
cells (a cell is `Option Val`, `none` standing for NaN / missing).
Numeric values are embedded as rationals; the fixed thresholds 15, 0.9
and 0.8 of the source become exact rational constants.

Embedded functions (from `app/utils/io.py`):
  * `detect_column_types`  — the per-column type classifier;
  * `validate_dataframe`   — hard checks, warnings, target candidates;
  * `check_high_cardinality_and_identifiers`;
  * `preprocess_dataset`   — imputation (sklearn `SimpleImputer` with
    `mean` / `most_frequent`), one-hot encoding (`pd.get_dummies`) and
    reconciliation against the model schema.  Python raising is embedded
    as `Except PyErr`; the in-place mutation of the given DataFrame by
    the imputation write-back is made explicit: `preprocess_dataset`
    returns the mutated source table together with the aligned matrix.
-/

/-- A cell value: a number (pandas numerics, embedded as `ℚ`) or a string. -/
inductive Val where
  | num (q : ℚ)
  | str (s : String)
deriving DecidableEq, Repr

/-- The pandas dtype tag of a column, as far as `detect_column_types`
discriminates: `is_numeric_dtype`, `is_string_dtype`, `is_categorical_dtype`,
and everything else (`object`/mixed). -/
inductive DType where
  | numeric
  | string
  | categorical
  | object
deriving DecidableEq, Repr

/-- A named column: dtype tag plus cells (`none` = missing/NaN). -/
structure Column where
  name : String
  dtype : DType
  cells : List (Option Val)
deriving DecidableEq, Repr

/-- A table (DataFrame): an ordered list of named columns. -/
structure Table where
  cols : List Column
deriving DecidableEq, Repr

/-- `df.shape[0]`: the row count (length of the first column; 0 for an
empty frame).  Well-formed tables have all columns of this length. -/
def Table.nrows (t : Table) : Nat :=
  match t.cols with
  | [] => 0
  | c :: _ => c.cells.length

/-- The column-name list, `df.columns.tolist()`. -/
def Table.names (t : Table) : List String :=
  t.cols.map Column.name

/-- Well-formedness: all columns share the row count, and column names are
distinct (pandas labels used as keys). -/
def Table.WF (t : Table) : Prop :=
  (∀ c ∈ t.cols, c.cells.length = t.nrows) ∧ t.names.Nodup

instance (t : Table) : Decidable t.WF := by
  unfold Table.WF
  exact instDecidableAnd

/-- A Python exception: class name and message. -/
structure PyErr where
  kind : String
  msg : String
deriving DecidableEq, Repr

instance {ε α : Type} [DecidableEq ε] [DecidableEq α] : DecidableEq (Except ε α) := fun x y =>
  match x, y with
  | Except.ok a, Except.ok b =>
    if h : a = b then Decidable.isTrue (congrArg Except.ok h)
    else Decidable.isFalse (fun hh => h (Except.ok.inj hh))
  | Except.error a, Except.error b =>
    if h : a = b then Decidable.isTrue (congrArg Except.error h)
    else Decidable.isFalse (fun hh => h (Except.error.inj hh))
  | Except.ok _, Except.error _ => Decidable.isFalse (fun hh => Except.noConfusion hh)
  | Except.error _, Except.ok _ => Decidable.isFalse (fun hh => Except.noConfusion hh)

/-- `series.nunique()`: the number of distinct non-missing values. -/
def nuniqueCells (cells : List (Option Val)) : Nat :=
  (cells.filterMap id).dedup.length

/-- `pd.to_numeric` on a single string: numeric literals parse, everything
else coerces to NaN.  (The embedding reads integer literals.) -/
def parseNum (s : String) : Option ℚ :=
  (s.toInt?).map (fun i => (i : ℚ))

/-- `pd.to_numeric(·, errors="coerce")` on one cell. -/
def coerceCell : Option Val → Option ℚ
  | none => none
  | some (Val.num q) => some q
  | some (Val.str s) => parseNum s

/-- The coercion success ratio of step 3 of the classifier:
`coerced.notnull().sum() / len(series)`. -/
def coercedRatio (c : Column) : ℚ :=
  (((c.cells.map coerceCell).filterMap id).length : ℚ) / (c.cells.length : ℚ)

/-- `coerced.nunique()` of step 3 of the classifier. -/
def coercedNunique (c : Column) : Nat :=
  ((c.cells.map coerceCell).filterMap id).dedup.length

/-- The per-column decision of `detect_column_types`:
`true` means the column lands in `numeric`, `false` in `categorical`. -/
def classifyCol (c : Column) : Bool :=
  if c.dtype = DType.numeric then
    decide (nuniqueCells c.cells > 15)
  else if c.dtype = DType.string ∨ c.dtype = DType.categorical then
    false
  else
    if coercedRatio c > 8/10 then
      decide (coercedNunique c > 15)
    else
      false

/-- The result of `detect_column_types`: the two name buckets. -/
structure ColumnTypeReport where
  numeric : List String
  categorical : List String
deriving DecidableEq, Repr

/-- `detect_column_types`: walk the columns in order, appending each name
to exactly one bucket according to `classifyCol`. -/
def detect_column_types : List Column → ColumnTypeReport
  | [] => ⟨[], []⟩
  | c :: rest =>
    let r := detect_column_types rest
    if classifyCol c then
      ⟨c.name :: r.numeric, r.categorical⟩
    else
      ⟨r.numeric, c.name :: r.categorical⟩

/-- `df.isnull().sum().sum()`: total missing-cell count. -/
def totalNulls (t : Table) : Nat :=
  (t.cols.map (fun c => (c.cells.filter Option.isNone).length)).sum

/-- `df.isnull().sum().any()`: is any cell missing? -/
def anyNull (t : Table) : Bool :=
  t.cols.any (fun c => c.cells.any Option.isNone)

/-- `df.isnull().all().all()`: is every cell missing? -/
def allNull (t : Table) : Bool :=
  t.cols.all (fun c => c.cells.all Option.isNone)

/-- Python `str(list_of_names)`, as interpolated into warning strings. -/
def pyList (xs : List String) : String :=
  "[" ++ String.intercalate ", " (xs.map (fun s => "\x27" ++ s ++ "\x27")) ++ "]"

/-- Substring search on character lists (Python `needle in haystack`). -/
def substrAux (needle : List Char) : List Char → Bool
  | [] => needle.isEmpty
  | c :: rest => needle.isPrefixOf (c :: rest) || substrAux needle rest

/-- Python `needle in hay` on strings. -/
def containsStr (hay needle : String) : Bool :=
  substrAux needle.data hay.data

/-- The fixed keyword set of `check_high_cardinality_and_identifiers`. -/
def identifier_keywords : List String :=
  ["id", "uuid", "name", "code", "ref", "number"]

/-- Does the lower-cased column name contain an identifier keyword? -/
def nameHasKeyword (n : String) : Bool :=
  identifier_keywords.any (fun k => containsStr n.toLower k)

/-- The loop of `check_high_cardinality_and_identifiers`: `total = len(df)`;
a column is high-cardinality when `nunique > 0.9 * total`, and a likely
identifier when additionally its lower-cased name contains a keyword. -/
def checkHCGo (total : Nat) : List Column → List String × List String
  | [] => ([], [])
  | c :: rest =>
    let p := checkHCGo total rest
    if (nuniqueCells c.cells : ℚ) > (9/10) * (total : ℚ) then
      (c.name :: p.1,
        if nameHasKeyword c.name then c.name :: p.2 else p.2)
    else
      p

/-- `check_high_cardinality_and_identifiers(df)`. -/
def check_high_cardinality_and_identifiers (t : Table) : List String × List String :=
  checkHCGo t.nrows t.cols

/-- The dict returned by `validate_dataframe`. -/
structure ValidationReport where
  columns : List String
  column_types : ColumnTypeReport
  row_count : Nat
  missing_values : Nat
  column_count : Nat
  target_candidates : List String
  warnings : List String
deriving DecidableEq, Repr

/-- The warning list built by `validate_dataframe`, in source order. -/
def buildWarnings (t : Table) : List String :=
  let w1 : List String := if anyNull t then ["Contains null values"] else []
  let constant_cols := (t.cols.filter (fun c => nuniqueCells c.cells ≤ 1)).map Column.name
  let w2 : List String :=
    if constant_cols.isEmpty then []
    else ["Constant or empty columns: " ++ pyList constant_cols]
  let hc := check_high_cardinality_and_identifiers t
  let w3 : List String :=
    if hc.1.isEmpty then [] else ["High cardinality columns: " ++ pyList hc.1]
  let w4 : List String :=
    if hc.2.isEmpty then [] else ["Likely identifier columns: " ++ pyList hc.2]
  w1 ++ w2 ++ w3 ++ w4

/-- The target-candidate list: columns with `nunique() > 1` and
`nunique() < df.shape[0] * 0.9`. -/
def targetCandidates (t : Table) : List String :=
  (t.cols.filter (fun c =>
    decide (nuniqueCells c.cells > 1 ∧
      (nuniqueCells c.cells : ℚ) < (t.nrows : ℚ) * (9/10)))).map Column.name

/-- `validate_dataframe(df)`: the three hard checks in order, then the
diagnostic report. -/
def validate_dataframe (t : Table) : Except PyErr ValidationReport :=
  if t.nrows < 10 then
    Except.error ⟨"ValueError", "Too few rows."⟩
  else if t.cols.length < 2 then
    Except.error ⟨"ValueError", "Too few columns."⟩
  else if allNull t then
    Except.error ⟨"ValueError", "Dataframe contains only null values."⟩
  else
    Except.ok
      { columns := t.names
        column_types := detect_column_types t.cols
        row_count := t.nrows
        missing_values := totalNulls t
        column_count := t.cols.length
        target_candidates := targetCandidates t
        warnings := buildWarnings t }

/-- The state-passing reading of `validate_dataframe`: the function body
performs no assignment to `df` (every pandas call in it is a read), so the
threaded table is returned unchanged alongside the result. -/
def validateRun (t : Table) : Except PyErr ValidationReport × Table :=
  (validate_dataframe t, t)

/-! ## The schema aligner: `preprocess_dataset` -/

/-- The sklearn conversion of one cell to `float64` for the mean imputer:
missing stays missing, numbers pass, numeric strings parse, anything else
raises (`could not convert string to float`). -/
def coerceStrict : Option Val → Except PyErr (Option ℚ)
  | none => Except.ok none
  | some (Val.num q) => Except.ok (some q)
  | some (Val.str s) =>
    match parseNum s with
    | some q => Except.ok (some q)
    | none => Except.error ⟨"ValueError", "could not convert string to float: " ++ s⟩

/-- The sklearn float conversion applied cell by cell to a whole column. -/
def coerceCells : List (Option Val) → Except PyErr (List (Option ℚ))
  | [] => Except.ok []
  | cell :: rest => do
    let q ← coerceStrict cell
    let qs ← coerceCells rest
    Except.ok (q :: qs)

/-- `SimpleImputer(strategy="mean")` on one column, followed by the
write-back `dataset[cols] = ...`.  All cells are converted to floats; the
mean of the present values replaces each missing cell; an all-missing
column is dropped by sklearn, so the write-back fails on a shape mismatch.
The written-back column has float dtype. -/
def imputeMeanCol (c : Column) : Except PyErr Column := do
  let parsed ← coerceCells c.cells
  let present := parsed.filterMap id
  if present.isEmpty then
    Except.error ⟨"ValueError", "Columns must be same length as key"⟩
  else
    let m := present.sum / (present.length : ℚ)
    Except.ok
      { name := c.name
        dtype := DType.numeric
        cells := parsed.map (fun p => some (Val.num (p.getD m))) }

/-- The total order sklearn uses to break most-frequent ties (smallest
value wins); numbers before strings, each kind in its natural order. -/
def valLE : Val → Val → Bool
  | Val.num a, Val.num b => decide (a ≤ b)
  | Val.num _, Val.str _ => true
  | Val.str _, Val.num _ => false
  | Val.str a, Val.str b => decide (a ≤ b)

/-- One comparison step of the most-frequent search: keep whichever of the
candidates occurs more often in `l`, ties broken towards the smaller. -/
def pickBetter (l : List Val) (acc : Option Val) (v : Val) : Option Val :=
  match acc with
  | none => some v
  | some w =>
    if l.count v > l.count w ∨ (l.count v = l.count w ∧ valLE v w) then
      some v
    else
      some w

/-- `SimpleImputer(strategy="most_frequent")`: the most frequent value of
the list, ties broken towards the smallest.  `none` iff the list is empty. -/
def pickMode (l : List Val) : Option Val :=
  l.dedup.foldl (pickBetter l) none

/-- `SimpleImputer(strategy="most_frequent")` on one column plus the
write-back.  An all-missing column is dropped by sklearn, failing the
write-back; otherwise missing cells are filled with the mode.  The
write-back assigns from an object ndarray, so the column dtype becomes
`object`. -/
def imputeModeCol (c : Column) : Except PyErr Column :=
  match pickMode (c.cells.filterMap id) with
  | none => Except.error ⟨"ValueError", "Columns must be same length as key"⟩
  | some m =>
    Except.ok
      { name := c.name
        dtype := DType.object
        cells := c.cells.map (fun cell => some (cell.getD m)) }

/-- Apply a per-column imputer to the columns selected by name, leaving
the rest untouched (`dataset[sel] = imputer.fit_transform(dataset[sel])`). -/
def imputeCols (f : Column → Except PyErr Column) (sel : List String) :
    List Column → Except PyErr (List Column)
  | [] => Except.ok []
  | c :: rest => do
    let c' ← if c.name ∈ sel then f c else Except.ok c
    let rest' ← imputeCols f sel rest
    Except.ok (c' :: rest')

/-- The numeric imputation pass.  sklearn rejects a selection of zero
features (`Found array with 0 feature(s)`). -/
def imputeNumeric (t : Table) (sel : List String) : Except PyErr Table :=
  if sel.isEmpty then
    Except.error ⟨"ValueError", "Found array with 0 feature(s)"⟩
  else
    (imputeCols imputeMeanCol sel t.cols).map Table.mk

/-- The categorical imputation pass, same empty-selection failure. -/
def imputeCategorical (t : Table) (sel : List String) : Except PyErr Table :=
  if sel.isEmpty then
    Except.error ⟨"ValueError", "Found array with 0 feature(s)"⟩
  else
    (imputeCols imputeModeCol sel t.cols).map Table.mk

/-- The string pandas uses for a category value in a dummy-column name. -/
def valName : Val → String
  | Val.num q => toString q
  | Val.str s => s

/-- Insertion into a `valLE`-sorted list. -/
def insertVal (v : Val) : List Val → List Val
  | [] => [v]
  | w :: rest => if valLE v w then v :: w :: rest else w :: insertVal v rest

/-- Sort the observed categories (pandas emits dummy columns in sorted
category order). -/
def sortVals (l : List Val) : List Val :=
  l.foldr insertVal []

/-- The indicator columns `pd.get_dummies` produces for one categorical
column: one column `name_value` per distinct observed value, cell 1 where
the cell equals the value, else 0. -/
def dummyCols (c : Column) : List Column :=
  (sortVals (c.cells.filterMap id).dedup).map (fun v =>
    { name := c.name ++ "_" ++ valName v
      dtype := DType.numeric
      cells := c.cells.map (fun cell =>
        some (Val.num (if cell = some v then 1 else 0))) })

/-- `pd.get_dummies(dataset, columns=cats)`: non-encoded columns keep
their relative order and come first, then the dummy blocks of the encoded
columns in order. -/
def encodeStep (t : Table) (cats : List String) : Table :=
  ⟨(t.cols.filter (fun c => decide (c.name ∉ cats))) ++
    ((t.cols.filter (fun c => decide (c.name ∈ cats))).map dummyCols).flatten⟩

/-- The reconciliation loop: for every schema name absent from the encoded
table, append a column of all zeros (`dataset_encoded[col] = 0`). -/
def addMissing : Table → List String → Table
  | enc, [] => enc
  | enc, col :: rest =>
    if enc.cols.any (fun c => c.name = col) then
      addMissing enc rest
    else
      addMissing
        ⟨enc.cols ++ [{ name := col
                        dtype := DType.numeric
                        cells := List.replicate enc.nrows (some (Val.num 0)) }]⟩
        rest

/-- `dataset_encoded[model_columns]`: project onto the schema names in
schema order.  Pandas label selection returns every column carrying a
requested label, so a duplicated label yields all of its columns. -/
def selectCols (enc : Table) (mc : List String) : Table :=
  ⟨mc.flatMap (fun n => enc.cols.filter (fun c => c.name = n))⟩

/-- The body of `preprocess_dataset` before the catch-all handler.  The
first component of the result is the source table as the in-place
imputation write-backs leave it; the second is the aligned matrix. -/
def preprocessBody (t : Table) (mc : List String) : Except PyErr (Table × Table) := do
  let r := detect_column_types t.cols
  let t1 ← imputeNumeric t r.numeric
  let t2 ← imputeCategorical t1 r.categorical
  let enc := encodeStep t2 r.categorical
  let aligned := selectCols (addMissing enc mc) mc
  Except.ok (t2, aligned)

/-- `preprocess_dataset(dataset, model_columns)`: the body under the
catch-all handler that re-raises every exception as a `ValueError` whose
message is "Preprocessing failed: " followed by the original message. -/
def preprocess_dataset (t : Table) (mc : List String) : Except PyErr (Table × Table) :=
  match preprocessBody t mc with
  | Except.ok r => Except.ok r
  | Except.error e => Except.error ⟨"ValueError", "Preprocessing failed: " ++ e.msg⟩

/-! ## Concrete tables used as witnesses and counterexamples -/

/-- A numeric `age` column with 16 distinct values. -/
def exAge : Column :=
  ⟨"age", DType.numeric, (List.range 16).map (fun i => some (Val.num ((i : ℚ) + 1)))⟩

/-- A categorical `city` column (object dtype, CSV strings) with observed
values A and C. -/
def exCity : Column :=
  ⟨"city", DType.object,
    (List.range 16).map (fun i => some (Val.str (if i % 2 = 0 then "A" else "C")))⟩

/-- The alignment example table of the specification. -/
def exT : Table := ⟨[exAge, exCity]⟩

/-- The aligned matrix `preprocess_dataset` produces for `exT` and schema
`["age", "city_A", "city_B"]`. -/
def exM : Table :=
  ⟨[exAge,
    ⟨"city_A", DType.numeric,
      (List.range 16).map (fun i => some (Val.num (if i % 2 = 0 then 1 else 0)))⟩,
    ⟨"city_B", DType.numeric, List.replicate 16 (some (Val.num 0))⟩]⟩

/-- A numeric column `x` with 20 distinct values. -/
def cexX : Column :=
  ⟨"x", DType.numeric, (List.range 20).map (fun i => some (Val.num ((i : ℚ) + 1)))⟩

/-- An object column `v`: 16 distinct numeric values and 4 missing cells,
so the coercion ratio is exactly 0.8 and the first classification is
`categorical`. -/
def cexV : Column :=
  ⟨"v", DType.object,
    (List.range 16).map (fun i => some (Val.num ((i : ℚ) + 1))) ++ List.replicate 4 none⟩

/-- The re-run counterexample table. -/
def cexT : Table := ⟨[cexX, cexV]⟩

/-- `cexT` as the first alignment run leaves it: the missing cells of `v`
are filled in place with the most frequent value 1, after which `v`
coerces fully to numeric with 16 distinct values. -/
def cexT2 : Table :=
  ⟨[cexX,
    ⟨"v", DType.object,
      (List.range 16).map (fun i => some (Val.num ((i : ℚ) + 1))) ++
        List.replicate 4 (some (Val.num 1))⟩]⟩

/-- The matrix of the first run of the re-run counterexample. -/
def cexM : Table :=
  ⟨[cexX,
    ⟨"v_1", DType.numeric,
      some (Val.num 1) :: (List.replicate 15 (some (Val.num 0)) ++
        List.replicate 4 (some (Val.num 1)))⟩]⟩

/-- A 9-row single-column table (fails the first hard check). -/
def t9 : Table :=
  ⟨[⟨"a", DType.numeric, (List.range 9).map (fun i => some (Val.num (i : ℚ)))⟩]⟩

/-- A 10-row two-column table that passes all hard checks. -/
def t10 : Table :=
  ⟨[⟨"a", DType.numeric, (List.range 10).map (fun i => some (Val.num (i : ℚ)))⟩,
    ⟨"b", DType.numeric, (List.range 10).map (fun i => some (Val.num (if i % 2 = 0 then 0 else 1)))⟩]⟩

/-- A 100-row table: `u` has 100 distinct values (an identifier-like
column), `b` has 2 distinct values. -/
def t100 : Table :=
  ⟨[⟨"u", DType.numeric, (List.range 100).map (fun i => some (Val.num ((i : ℚ) + 1)))⟩,
    ⟨"b", DType.numeric, (List.range 100).map (fun i => some (Val.num (if i % 2 = 0 then 0 else 1)))⟩]⟩

/-- A 20-row table with two high-cardinality columns, one whose name
contains the keyword `id` and one whose name contains no keyword. -/
def tId : Table :=
  ⟨[⟨"customer_id", DType.numeric, (List.range 20).map (fun i => some (Val.num ((i : ℚ) + 1)))⟩,
    ⟨"transaction_amount", DType.numeric, (List.range 20).map (fun i => some (Val.num ((i : ℚ) * 3 + 7)))⟩]⟩

/-- A 20-row table: `c20` is numeric with 20 distinct values, `c5` numeric
with 5 distinct values. -/
def t4ex : Table :=
  ⟨[⟨"c20", DType.numeric, (List.range 20).map (fun i => some (Val.num ((i : ℚ) + 1)))⟩,
    ⟨"c5", DType.numeric, (List.range 20).map (fun i => some (Val.num ((i % 5 : ℕ) : ℚ)))⟩]⟩

/-- A well-formed, fully observed table whose columns are all numeric with
more than 15 distinct values, so the classifier returns an empty
categorical set. -/
def tAllNum : Table :=
  ⟨[⟨"p", DType.numeric, (List.range 16).map (fun i => some (Val.num ((i : ℚ) + 1)))⟩,
    ⟨"q", DType.numeric, (List.range 16).map (fun i => some (Val.num ((i : ℚ) * 2)))⟩]⟩

/-- A numeric column literally named `city_A`, colliding with the dummy
name `pd.get_dummies` produces for category A of column `city`. -/
def colDup : Column :=
  ⟨"city_A", DType.numeric, (List.range 16).map (fun i => some (Val.num ((i : ℚ) * 5 + 2)))⟩

/-- A categorical `city` column whose only observed value is A. -/
def colCity : Column := ⟨"city", DType.object, List.replicate 16 (some (Val.str "A"))⟩

/-- The duplicate-label collision table: encoding `city` emits a second
column named `city_A` next to the original one. -/
def colT : Table := ⟨[exAge, colDup, colCity]⟩

/-- The matrix the real projection returns for `colT` and schema
`["age", "city_A", "city_B"]`: both `city_A` columns are kept, so the
output has four columns, not the three of the schema. -/
def colM : Table :=
  ⟨[exAge, colDup,
    ⟨"city_A", DType.numeric, List.replicate 16 (some (Val.num 1))⟩,
    ⟨"city_B", DType.numeric, List.replicate 16 (some (Val.num 0))⟩]⟩

/-- The validation report of `t100`. -/
def r100 : ValidationReport :=
  { columns := ["u", "b"]
    column_types := ⟨["u"], ["b"]⟩
    row_count := 100
    missing_values := 0
    column_count := 2
    target_candidates := ["b"]
    warnings := ["High cardinality columns: [\x27u\x27]"] }

/-- The error raised by `preprocess_dataset` when a classifier bucket is
empty (sklearn refuses a zero-feature selection, the wrapper re-raises). -/
def emptyFeaturesErr : PyErr :=
  ⟨"ValueError", "Preprocessing failed: Found array with 0 feature(s)"⟩

/-! ## Theorems -/

theorem exceptBind_ok {ε α β : Type} (a : α) (f : α → Except ε β) :
    (Except.ok a >>= f : Except ε β) = f a := rfl

theorem exceptBind_error {ε α β : Type} (e : ε) (f : α → Except ε β) :
    (Except.error e >>= f : Except ε β) = Except.error e := rfl

set_option maxRecDepth 40000

theorem detect_append_perm (cols : List Column) :
    ((detect_column_types cols).numeric ++ (detect_column_types cols).categorical).Perm
      (cols.map Column.name) := by
  induction cols with
  | nil => simp [detect_column_types]
  | cons c rest ih =>
    simp only [detect_column_types, List.map_cons]
    by_cases h : classifyCol c = true
    · simp only [h, if_true]
      exact ih.cons c.name
    · simp only [h, if_false]
      exact List.perm_middle.trans (ih.cons c.name)

/-- **C2**: for every table, the Type Classifier report partitions the
column names: `numeric ++ categorical` is a permutation of the name list
(every column classified, none lost, none duplicated across the report),
and when the column names are distinct the two buckets are disjoint. -/
theorem detect_types_partition (t : Table) :
    ((detect_column_types t.cols).numeric ++ (detect_column_types t.cols).categorical).Perm
        t.names ∧
      (t.names.Nodup →
        (detect_column_types t.cols).numeric.Disjoint
          (detect_column_types t.cols).categorical) := by
  refine ⟨detect_append_perm t.cols, fun hnd => ?_⟩
  have h : ((detect_column_types t.cols).numeric ++
      (detect_column_types t.cols).categorical).Nodup :=
    (detect_append_perm t.cols).nodup_iff.mpr hnd
  exact (List.nodup_append.mp h).2.2

/-- Witness for C2 at the concrete example table. -/
theorem detect_types_partition_witness :
    ((detect_column_types exT.cols).numeric ++
        (detect_column_types exT.cols).categorical).Perm exT.names ∧
      (detect_column_types exT.cols).numeric.Disjoint
        (detect_column_types exT.cols).categorical :=
  ⟨(detect_types_partition exT).1,
    (detect_types_partition exT).2 (by with_unfolding_all decide)⟩

theorem mem_detect_numeric (cols : List Column) (n : String) :
    n ∈ (detect_column_types cols).numeric ↔
      ∃ c ∈ cols, c.name = n ∧ classifyCol c = true := by
  induction cols with
  | nil => simp [detect_column_types]
  | cons c rest ih =>
    by_cases h : classifyCol c = true <;>
      simp [detect_column_types, h, ih, List.exists_mem_cons_iff]
    exact or_congr eq_comm Iff.rfl

theorem mem_detect_categorical (cols : List Column) (n : String) :
    n ∈ (detect_column_types cols).categorical ↔
      ∃ c ∈ cols, c.name = n ∧ classifyCol c = false := by
  induction cols with
  | nil => simp [detect_column_types]
  | cons c rest ih =>
    by_cases h : classifyCol c = true <;>
      simp [detect_column_types, h, ih, List.exists_mem_cons_iff]
    exact or_congr eq_comm Iff.rfl

/-- The decision procedure of `classifyCol`, written out as a
proposition. -/
theorem classifyCol_iff (c : Column) :
    classifyCol c = true ↔
      (if c.dtype = DType.numeric then 15 < nuniqueCells c.cells
       else if c.dtype = DType.string ∨ c.dtype = DType.categorical then False
       else 8/10 < coercedRatio c ∧ 15 < coercedNunique c) := by
  by_cases h1 : c.dtype = DType.numeric
  · simp [classifyCol, h1]
  · by_cases h2 : c.dtype = DType.string ∨ c.dtype = DType.categorical
    · simp [classifyCol, h1, h2]
    · by_cases h3 : (8 : ℚ)/10 < coercedRatio c <;>
        simp [classifyCol, h1, h2, h3, gt_iff_lt]

/-- **C4**: for a table with distinct column names, a column is reported
`numeric` exactly as prescribed by the ordered decision procedure of the
classifier (numeric dtype: more than 15 distinct values; string or
categorical dtype: never; otherwise: coercion ratio above 0.8 and more
than 15 distinct coerced values), and `categorical` exactly otherwise. -/
theorem classify_decision (t : Table) (c : Column)
    (hnd : t.names.Nodup) (hc : c ∈ t.cols) :
    (c.name ∈ (detect_column_types t.cols).numeric ↔
        (if c.dtype = DType.numeric then 15 < nuniqueCells c.cells
         else if c.dtype = DType.string ∨ c.dtype = DType.categorical then False
         else 8/10 < coercedRatio c ∧ 15 < coercedNunique c)) ∧
      (c.name ∈ (detect_column_types t.cols).categorical ↔
        ¬ (if c.dtype = DType.numeric then 15 < nuniqueCells c.cells
           else if c.dtype = DType.string ∨ c.dtype = DType.categorical then False
           else 8/10 < coercedRatio c ∧ 15 < coercedNunique c)) := by
  have hinj := List.inj_on_of_nodup_map (f := Column.name) hnd
  constructor
  · rw [← classifyCol_iff, mem_detect_numeric]
    constructor
    · rintro ⟨c', hc', heq, hcls⟩
      rwa [hinj hc' hc heq] at hcls
    · intro hcls
      exact ⟨c, hc, rfl, hcls⟩
  · rw [← classifyCol_iff, mem_detect_categorical]
    constructor
    · rintro ⟨c', hc', heq, hcls⟩
      rw [hinj hc' hc heq] at hcls
      simp [hcls]
    · intro hcls
      exact ⟨c, hc, rfl, by simpa using hcls⟩

/-- Witness for C4: in `t4ex` the purely numeric 20-distinct-value column
is classified numeric and the 5-distinct-value column categorical. -/
theorem classify_decision_witness :
    ("c20" ∈ (detect_column_types t4ex.cols).numeric ∧
        "c20" ∉ (detect_column_types t4ex.cols).categorical) ∧
      ("c5" ∈ (detect_column_types t4ex.cols).categorical ∧
        "c5" ∉ (detect_column_types t4ex.cols).numeric) := by
  have h20 := classify_decision t4ex t4ex.cols[0]
    (by with_unfolding_all decide) (by with_unfolding_all decide)
  have h5 := classify_decision t4ex t4ex.cols[1]
    (by with_unfolding_all decide) (by with_unfolding_all decide)
  refine ⟨⟨h20.1.mpr (by with_unfolding_all decide), fun hmem => ?_⟩,
    h5.2.mpr (by with_unfolding_all decide), fun hmem => ?_⟩
  · exact (h20.2.mp hmem) (by with_unfolding_all decide)
  · exact absurd (h5.1.mp hmem) (by with_unfolding_all decide)

/-- **C3**: `validate_dataframe` raises exactly when the table has fewer
than 10 rows, fewer than 2 columns, or only missing cells; the checks run
in that order and the first failing one fixes the error; otherwise a
report is produced. -/
theorem validate_hard_checks (t : Table) :
    (t.nrows < 10 →
        validate_dataframe t = Except.error ⟨"ValueError", "Too few rows."⟩) ∧
      (¬ t.nrows < 10 → t.cols.length < 2 →
        validate_dataframe t = Except.error ⟨"ValueError", "Too few columns."⟩) ∧
      (¬ t.nrows < 10 → ¬ t.cols.length < 2 → allNull t = true →
        validate_dataframe t =
          Except.error ⟨"ValueError", "Dataframe contains only null values."⟩) ∧
      (¬ t.nrows < 10 → ¬ t.cols.length < 2 → allNull t = false →
        ∃ r, validate_dataframe t = Except.ok r) := by
  refine ⟨fun h1 => ?_, fun h1 h2 => ?_, fun h1 h2 h3 => ?_, fun h1 h2 h3 => ?_⟩
  · simp [validate_dataframe, h1]
  · simp [validate_dataframe, h1, h2]
  · simp [validate_dataframe, h1, h2, h3]
  · refine ⟨{ columns := t.names
              column_types := detect_column_types t.cols
              row_count := t.nrows
              missing_values := totalNulls t
              column_count := t.cols.length
              target_candidates := targetCandidates t
              warnings := buildWarnings t }, ?_⟩
    simp [validate_dataframe, h1, h2, h3]

/-- Witness for C3: a 9-row single-column table fails with the
too-few-rows error (the row check fires before the column check), and a
10-row two-column table yields a report. -/
theorem validate_hard_checks_witness :
    validate_dataframe t9 = Except.error ⟨"ValueError", "Too few rows."⟩ ∧
      ∃ r, validate_dataframe t10 = Except.ok r :=
  ⟨(validate_hard_checks t9).1 (by with_unfolding_all decide),
    (validate_hard_checks t10).2.2.2 (by with_unfolding_all decide)
      (by with_unfolding_all decide) (by with_unfolding_all decide)⟩

/-- **C8**: the validator never mutates the input table: in the
state-passing reading of `validate_dataframe` (whose body contains only
pandas reads, no assignment to `df`), the table coming out is the table
that went in, and the report is a pure function of it. -/
theorem validate_preserves_table (t : Table) :
    (validateRun t).2 = t ∧ (validateRun t).1 = validate_dataframe t :=
  ⟨rfl, rfl⟩

theorem checkHCGo_fst (total : Nat) (cols : List Column) :
    (checkHCGo total cols).1 =
      (cols.filter (fun c =>
        decide ((nuniqueCells c.cells : ℚ) > (9/10) * (total : ℚ)))).map Column.name := by
  induction cols with
  | nil => rfl
  | cons c rest ih =>
    simp only [checkHCGo, List.filter_cons]
    by_cases h : (nuniqueCells c.cells : ℚ) > (9/10) * (total : ℚ) <;>
      simp [h, ih]

theorem checkHCGo_snd (total : Nat) (cols : List Column) :
    (checkHCGo total cols).2 = (checkHCGo total cols).1.filter nameHasKeyword := by
  induction cols with
  | nil => rfl
  | cons c rest ih =>
    simp only [checkHCGo]
    by_cases h : (nuniqueCells c.cells : ℚ) > (9/10) * (total : ℚ)
    · by_cases hk : nameHasKeyword c.name = true <;>
        simp [h, hk, ih, List.filter_cons]
    · simp [h, ih]

/-- **C7**: the high-cardinality list consists of exactly the columns
whose distinct-value count exceeds 90% of the row count, the
likely-identifier list is exactly its sublist of names containing an
identifier keyword, and is therefore always a subset of it. -/
theorem likely_ids_spec (t : Table) :
    (check_high_cardinality_and_identifiers t).1 =
        (t.cols.filter (fun c =>
          decide ((nuniqueCells c.cells : ℚ) > (9/10) * (t.nrows : ℚ)))).map Column.name ∧
      (check_high_cardinality_and_identifiers t).2 =
        (check_high_cardinality_and_identifiers t).1.filter nameHasKeyword ∧
      ∀ n ∈ (check_high_cardinality_and_identifiers t).2,
        n ∈ (check_high_cardinality_and_identifiers t).1 := by
  refine ⟨checkHCGo_fst t.nrows t.cols, checkHCGo_snd t.nrows t.cols, fun n hn => ?_⟩
  rw [check_high_cardinality_and_identifiers, checkHCGo_snd] at hn
  exact List.mem_of_mem_filter hn

/-- Witness for C7: `customer_id` lands in both lists, the keyword-free
`transaction_amount` only in the high-cardinality list. -/
theorem likely_ids_spec_witness :
    ((check_high_cardinality_and_identifiers tId).2 =
        (check_high_cardinality_and_identifiers tId).1.filter nameHasKeyword) ∧
      ("customer_id" ∈ (check_high_cardinality_and_identifiers tId).1 ∧
        "customer_id" ∈ (check_high_cardinality_and_identifiers tId).2 ∧
        "transaction_amount" ∈ (check_high_cardinality_and_identifiers tId).1 ∧
        "transaction_amount" ∉ (check_high_cardinality_and_identifiers tId).2) :=
  ⟨(likely_ids_spec tId).2.1, by with_unfolding_all decide⟩

theorem validate_ok_fields (t : Table) (r : ValidationReport)
    (h : validate_dataframe t = Except.ok r) :
    r = { columns := t.names
          column_types := detect_column_types t.cols
          row_count := t.nrows
          missing_values := totalNulls t
          column_count := t.cols.length
          target_candidates := targetCandidates t
          warnings := buildWarnings t } := by
  by_cases h1 : t.nrows < 10
  · simp [validate_dataframe, h1] at h
  · by_cases h2 : t.cols.length < 2
    · simp [validate_dataframe, h1, h2] at h
    · by_cases h3 : allNull t = true
      · simp [validate_dataframe, h1, h2, h3] at h
      · simp only [validate_dataframe, if_neg h1, if_neg h2, if_neg h3,
          Except.ok.injEq] at h
        exact h.symm

/-- **C6**: for every table passing the hard checks, the target-candidate
list of the report holds exactly the columns whose distinct-value count is
greater than 1 and strictly below 90% of the row count. -/
theorem target_candidates_spec (t : Table) (r : ValidationReport)
    (h : validate_dataframe t = Except.ok r) (n : String) :
    n ∈ r.target_candidates ↔
      ∃ c ∈ t.cols, c.name = n ∧ 1 < nuniqueCells c.cells ∧
        (nuniqueCells c.cells : ℚ) < (t.nrows : ℚ) * (9/10) := by
  rw [validate_ok_fields t r h]
  simp only [targetCandidates, List.mem_map, List.mem_filter,
    decide_eq_true_eq, gt_iff_lt]
  constructor
  · rintro ⟨c, ⟨hc, hp⟩, rfl⟩
    exact ⟨c, hc, rfl, hp⟩
  · rintro ⟨c, hc, rfl, hp⟩
    exact ⟨c, ⟨hc, hp⟩, rfl⟩

/-- Witness for C6: in the 100-row table `t100`, the 2-distinct-value
column `b` is a target candidate and the 100-distinct-value column `u`
is not. -/
theorem target_candidates_spec_witness :
    "b" ∈ r100.target_candidates ∧ "u" ∉ r100.target_candidates :=
  ⟨(target_candidates_spec t100 r100 (by with_unfolding_all rfl) "b").mpr
      (by with_unfolding_all decide),
    fun hmem =>
      absurd ((target_candidates_spec t100 r100 (by with_unfolding_all rfl) "u").mp hmem)
        (by with_unfolding_all decide)⟩

theorem isPrefixOf_self (l : List Char) : l.isPrefixOf l = true := by
  induction l with
  | nil => rfl
  | cons a as ih => simp [List.isPrefixOf, ih]

theorem substrAux_append (pre suf : List Char) : substrAux suf (pre ++ suf) = true := by
  induction pre with
  | nil =>
    cases suf with
    | nil => rfl
    | cons c rest => simp [substrAux, isPrefixOf_self]
  | cons p ps ih => simp [substrAux, ih]

theorem containsStr_append (a b : String) : containsStr (a ++ b) b = true :=
  substrAux_append a.data b.data

/-- **C5**: every failure of `preprocess_dataset` surfaces as the single
wrapped error kind: the result is a `ValueError` whose message is the
fixed text followed by — and hence containing — the originating message
of the failing step, and no matrix is returned. -/
theorem preprocess_error_wrapped (t : Table) (mc : List String) (e : PyErr)
    (h : preprocess_dataset t mc = Except.error e) :
    ∃ cause, preprocessBody t mc = Except.error cause ∧
      e.kind = "ValueError" ∧
      e.msg = "Preprocessing failed: " ++ cause.msg ∧
      containsStr e.msg cause.msg = true := by
  unfold preprocess_dataset at h
  cases hb : preprocessBody t mc with
  | ok r =>
    rw [hb] at h
    cases h
  | error c =>
    rw [hb] at h
    have he : e = ⟨"ValueError", "Preprocessing failed: " ++ c.msg⟩ :=
      (Except.error.inj h).symm
    subst he
    exact ⟨c, rfl, rfl, rfl, containsStr_append "Preprocessing failed: " c.msg⟩

/-- Witness for C5 at a concrete failing table. -/
theorem preprocess_error_wrapped_witness :
    ∃ cause, preprocessBody tAllNum ["p", "q"] = Except.error cause ∧
      emptyFeaturesErr.kind = "ValueError" ∧
      emptyFeaturesErr.msg = "Preprocessing failed: " ++ cause.msg ∧
      containsStr emptyFeaturesErr.msg cause.msg = true :=
  preprocess_error_wrapped tAllNum ["p", "q"] emptyFeaturesErr
    (by with_unfolding_all rfl)

/-- **C10**: whenever the Type Classifier returns an empty numeric bucket
or an empty categorical bucket, `preprocess_dataset` fails (the imputers
reject an empty column selection), for every model schema. -/
theorem empty_bucket_preprocess_fails (t : Table) (mc : List String)
    (h : (detect_column_types t.cols).numeric = [] ∨
      (detect_column_types t.cols).categorical = []) :
    ∃ e, preprocess_dataset t mc = Except.error e := by
  suffices hs : ∃ c, preprocessBody t mc = Except.error c by
    obtain ⟨c, hc⟩ := hs
    exact ⟨⟨"ValueError", "Preprocessing failed: " ++ c.msg⟩,
      by rw [preprocess_dataset, hc]⟩
  cases h with
  | inl hnum =>
    refine ⟨⟨"ValueError", "Found array with 0 feature(s)"⟩, ?_⟩
    simp [preprocessBody, hnum, imputeNumeric, exceptBind_error]
  | inr hcat =>
    cases hN : imputeNumeric t (detect_column_types t.cols).numeric with
    | error e =>
      exact ⟨e, by simp [preprocessBody, hN, exceptBind_error]⟩
    | ok t1 =>
      refine ⟨⟨"ValueError", "Found array with 0 feature(s)"⟩, ?_⟩
      simp [preprocessBody, hN, hcat, imputeCategorical,
        exceptBind_ok, exceptBind_error]

/-- Witness for C10: a well-formed table with no missing values, all of
whose columns are numeric with more than 15 distinct values, makes
`preprocess_dataset` fail. -/
theorem empty_bucket_preprocess_fails_witness :
    (tAllNum.WF ∧ anyNull tAllNum = false) ∧
      ∃ e, preprocess_dataset tAllNum ["p", "q"] = Except.error e :=
  ⟨by with_unfolding_all decide,
    empty_bucket_preprocess_fails tAllNum ["p", "q"]
      (Or.inr (by with_unfolding_all rfl))⟩

theorem preprocess_ok_body (t : Table) (mc : List String) (tm : Table × Table)
    (h : preprocess_dataset t mc = Except.ok tm) :
    preprocessBody t mc = Except.ok tm := by
  unfold preprocess_dataset at h
  cases hb : preprocessBody t mc with
  | ok r => rw [hb] at h; exact h
  | error c => rw [hb] at h; cases h

theorem preprocessBody_ok_parts (t : Table) (mc : List String) (tm : Table × Table)
    (h : preprocessBody t mc = Except.ok tm) :
    ∃ t1, imputeNumeric t (detect_column_types t.cols).numeric = Except.ok t1 ∧
      imputeCategorical t1 (detect_column_types t.cols).categorical = Except.ok tm.1 ∧
      tm.2 = selectCols
        (addMissing (encodeStep tm.1 (detect_column_types t.cols).categorical) mc) mc := by
  simp only [preprocessBody] at h
  cases hN : imputeNumeric t (detect_column_types t.cols).numeric with
  | error e => rw [hN, exceptBind_error] at h; cases h
  | ok t1 =>
    rw [hN, exceptBind_ok] at h
    cases hC : imputeCategorical t1 (detect_column_types t.cols).categorical with
    | error e => rw [hC, exceptBind_error] at h; cases h
    | ok t2 =>
      rw [hC, exceptBind_ok] at h
      obtain rfl := (Except.ok.inj h).symm
      exact ⟨t1, rfl, hC, rfl⟩

theorem addMissing_pres (mc : List String) (enc : Table) (n : String)
    (h : ∃ c ∈ enc.cols, c.name = n) :
    ∃ c ∈ (addMissing enc mc).cols, c.name = n := by
  induction mc generalizing enc with
  | nil => exact h
  | cons a l ih =>
    rw [addMissing]
    split
    · exact ih enc h
    · refine ih _ ?_
      obtain ⟨c, hc, hn⟩ := h
      exact ⟨c, List.mem_append_left _ hc, hn⟩

theorem addMissing_mem (mc : List String) (enc : Table) (n : String) (h : n ∈ mc) :
    ∃ c ∈ (addMissing enc mc).cols, c.name = n := by
  induction mc generalizing enc with
  | nil => cases h
  | cons a l ih =>
    rcases List.mem_cons.mp h with rfl | hl
    · rw [addMissing]
      split
      case isTrue hany =>
        refine addMissing_pres l enc n ?_
        obtain ⟨c, hc, hcn⟩ := List.any_eq_true.mp hany
        exact ⟨c, hc, of_decide_eq_true hcn⟩
      case isFalse hany =>
        refine addMissing_pres l _ n ?_
        exact ⟨_, List.mem_append_right _ (List.mem_singleton_self _), rfl⟩
    · rw [addMissing]
      split <;> exact ih _ hl

theorem addMissing_zeros (mc : List String) (enc : Table) (c : Column)
    (h : c ∈ (addMissing enc mc).cols) :
    c ∈ enc.cols ∨ ∀ cell ∈ c.cells, cell = some (Val.num 0) := by
  induction mc generalizing enc with
  | nil => exact Or.inl h
  | cons a l ih =>
    rw [addMissing] at h
    split at h
    · exact ih enc h
    · rcases ih _ h with hmem | hz
      · rcases List.mem_append.mp hmem with h1 | h2
        · exact Or.inl h1
        · right
          rw [List.mem_singleton.mp h2]
          intro cell hcell
          exact List.eq_of_mem_replicate hcell
      · exact Or.inr hz

theorem filter_name_unique (cols : List Column)
    (hnd : (cols.map Column.name).Nodup) (n : String) (c : Column)
    (hc : c ∈ cols) (hn : c.name = n) :
    cols.filter (fun x => decide (x.name = n)) = [c] := by
  induction cols with
  | nil => cases hc
  | cons d rest ih =>
    rw [List.map_cons, List.nodup_cons] at hnd
    by_cases hd : d.name = n
    · have heq : c = d := by
        rcases List.mem_cons.mp hc with rfl | hcr
        · rfl
        · exfalso
          apply hnd.1
          rw [hd, ← hn]
          exact List.mem_map_of_mem Column.name hcr
      have hrest : rest.filter (fun x => decide (x.name = n)) = [] := by
        rw [List.filter_eq_nil_iff]
        intro x hx
        simp only [decide_eq_true_eq]
        intro hxn
        apply hnd.1
        rw [hd, ← hxn]
        exact List.mem_map_of_mem Column.name hx
      rw [List.filter_cons_of_pos (by simpa using hd), hrest, heq]
    · have hcr : c ∈ rest := by
        rcases List.mem_cons.mp hc with rfl | hcr
        · exact absurd hn hd
        · exact hcr
      rw [List.filter_cons_of_neg (by simpa using hd)]
      exact ih hnd.2 hcr

theorem addMissing_nodup (mc : List String) (enc : Table)
    (hnd : enc.names.Nodup) : (addMissing enc mc).names.Nodup := by
  induction mc generalizing enc with
  | nil => exact hnd
  | cons a l ih =>
    rw [addMissing]
    split
    · exact ih enc hnd
    case isFalse hany =>
      refine ih _ ?_
      have hna : a ∉ enc.names := by
        intro hmem
        apply hany
        obtain ⟨c, hc, hcn⟩ := List.mem_map.mp hmem
        exact List.any_eq_true.mpr ⟨c, hc, by simp [hcn]⟩
      show ((enc.cols ++ [_]).map Column.name).Nodup
      rw [List.map_append]
      refine List.Nodup.append hnd (List.nodup_singleton _) ?_
      intro x hx hx2
      rw [List.mem_singleton.mp hx2] at hx
      exact hna hx

theorem selectCols_names (mc : List String) (enc : Table)
    (hnd : enc.names.Nodup)
    (h : ∀ n ∈ mc, ∃ c ∈ enc.cols, c.name = n) :
    (selectCols enc mc).names = mc := by
  induction mc with
  | nil => rfl
  | cons a l ih =>
    obtain ⟨c, hc, hname⟩ := h a (List.mem_cons_self a l)
    have hfil : enc.cols.filter (fun x => decide (x.name = a)) = [c] :=
      filter_name_unique enc.cols hnd a c hc hname
    have hsel : (selectCols enc (a :: l)).cols
        = enc.cols.filter (fun x => decide (x.name = a)) ++ (selectCols enc l).cols := by
      simp [selectCols]
    show (selectCols enc (a :: l)).cols.map Column.name = a :: l
    rw [hsel, hfil, List.singleton_append, List.map_cons, hname]
    exact congrArg (a :: ·) (ih (fun n hn => h n (List.mem_cons_of_mem a hn)))

theorem selectCols_mem (mc : List String) (enc : Table) (c : Column)
    (h : c ∈ (selectCols enc mc).cols) : c ∈ enc.cols := by
  simp only [selectCols] at h
  obtain ⟨n, _, hfil⟩ := List.mem_flatMap.mp h
  exact List.mem_of_mem_filter hfil

/-- Counterexample for C1 as frozen: the claim quantifies over every table,
but pandas label selection returns every column carrying a requested
label.  On `colT` — whose numeric column `city_A` collides with the dummy
name the encoder produces for category A of `city` — alignment succeeds
and returns a matrix with four columns `age, city_A, city_A, city_B`,
which is not the three-name schema. -/
theorem align_duplicate_counterexample :
    preprocess_dataset colT ["age", "city_A", "city_B"] = Except.ok (colT, colM) ∧
      colM.names ≠ ["age", "city_A", "city_B"] := by
  constructor
  · with_unfolding_all rfl
  · with_unfolding_all decide

/-- **C1** (amended): whenever alignment succeeds and the encoded table
has no duplicated column names — in particular whenever no input column
name collides with a generated dummy name — the matrix has exactly the
model-schema column names in schema order (columns outside the schema are
dropped), and every matrix column whose name is absent from the encoded
table is an all-zero synthesized column.  The counterexample shows the
no-duplicate proviso is necessary: a duplicated encoded label makes the
projection return all of its columns. -/
theorem align_matrix_schema (t : Table) (mc : List String) (tm : Table × Table)
    (h : preprocess_dataset t mc = Except.ok tm)
    (hnd : (encodeStep tm.1 (detect_column_types t.cols).categorical).names.Nodup) :
    tm.2.names = mc ∧
      ∀ c ∈ tm.2.cols,
        c.name ∉ (encodeStep tm.1 (detect_column_types t.cols).categorical).names →
        ∀ cell ∈ c.cells, cell = some (Val.num 0) := by
  obtain ⟨t1, hN, hC, hsel⟩ :=
    preprocessBody_ok_parts t mc tm (preprocess_ok_body t mc tm h)
  constructor
  · rw [hsel]
    exact selectCols_names mc _ (addMissing_nodup mc _ hnd)
      (fun n hn => addMissing_mem mc _ n hn)
  · intro c hc hnot
    rw [hsel] at hc
    have hmem := selectCols_mem mc _ c hc
    rcases addMissing_zeros mc _ c hmem with hin | hz
    · exact absurd (List.mem_map_of_mem Column.name hin) hnot
    · exact hz

/-- Witness for C1: the specification example — schema
`["age", "city_A", "city_B"]`, table with numeric `age` and categorical
`city` over observed values A and C, whose encoded names
`age, city_A, city_C` are distinct — yields exactly those columns in that
order with `city_B` entirely zero. -/
theorem align_matrix_schema_witness :
    ((exT, exM).2.names = ["age", "city_A", "city_B"] ∧
      ∀ c ∈ (exT, exM).2.cols,
        c.name ∉ (encodeStep (exT, exM).1 (detect_column_types exT.cols).categorical).names →
        ∀ cell ∈ c.cells, cell = some (Val.num 0)) ∧
      (∃ c ∈ exM.cols, c.name = "city_B" ∧ ∀ cell ∈ c.cells, cell = some (Val.num 0)) :=
  ⟨align_matrix_schema exT ["age", "city_A", "city_B"] (exT, exM)
      (by with_unfolding_all rfl) (by with_unfolding_all decide),
    by with_unfolding_all decide⟩

theorem imputeCols_ok_mem (f : Column → Except PyErr Column) (sel : List String)
    (cols cols' : List Column) (h : imputeCols f sel cols = Except.ok cols')
    (c' : Column) (hc' : c' ∈ cols') :
    ∃ c ∈ cols, ((c.name ∈ sel ∧ f c = Except.ok c') ∨ (c.name ∉ sel ∧ c' = c)) := by
  induction cols generalizing cols' with
  | nil =>
    obtain rfl := (Except.ok.inj h).symm
    cases hc'
  | cons c rest ih =>
    simp only [imputeCols] at h
    by_cases hmem : c.name ∈ sel
    · rw [if_pos hmem] at h
      cases hf : f c with
      | error e => rw [hf, exceptBind_error] at h; cases h
      | ok c0 =>
        rw [hf, exceptBind_ok] at h
        cases hr : imputeCols f sel rest with
        | error e => rw [hr, exceptBind_error] at h; cases h
        | ok rest' =>
          rw [hr, exceptBind_ok] at h
          obtain rfl := (Except.ok.inj h).symm
          rcases List.mem_cons.mp hc' with rfl | hmem'
          · exact ⟨c, List.mem_cons_self _ _, Or.inl ⟨hmem, hf⟩⟩
          · obtain ⟨cc, hcc, hrel⟩ := ih rest' hr hmem'
            exact ⟨cc, List.mem_cons_of_mem _ hcc, hrel⟩
    · rw [if_neg hmem, exceptBind_ok] at h
      cases hr : imputeCols f sel rest with
      | error e => rw [hr, exceptBind_error] at h; cases h
      | ok rest' =>
        rw [hr, exceptBind_ok] at h
        obtain rfl := (Except.ok.inj h).symm
        rcases List.mem_cons.mp hc' with hceq | hmem'
        · exact ⟨c, List.mem_cons_self _ _, Or.inr ⟨hmem, hceq⟩⟩
        · obtain ⟨cc, hcc, hrel⟩ := ih rest' hr hmem'
          exact ⟨cc, List.mem_cons_of_mem _ hcc, hrel⟩

theorem imputeCols_diag (f : Column → Except PyErr Column) (sel : List String)
    (cols : List Column) (h : ∀ c ∈ cols, c.name ∈ sel → f c = Except.ok c) :
    imputeCols f sel cols = Except.ok cols := by
  induction cols with
  | nil => rfl
  | cons c rest ih =>
    have hrest := ih (fun c hc hm => h c (List.mem_cons_of_mem _ hc) hm)
    simp only [imputeCols]
    by_cases hmem : c.name ∈ sel
    · rw [if_pos hmem, h c (List.mem_cons_self _ _) hmem]
      simp only [exceptBind_ok]
      rw [hrest]
      simp only [exceptBind_ok]
    · rw [if_neg hmem]
      simp only [exceptBind_ok]
      rw [hrest]
      simp only [exceptBind_ok]

theorem imputeNumeric_ok_cols (t : Table) (sel : List String) (t1 : Table)
    (h : imputeNumeric t sel = Except.ok t1) :
    sel ≠ [] ∧ imputeCols imputeMeanCol sel t.cols = Except.ok t1.cols := by
  by_cases hnil : sel.isEmpty = true
  · rw [imputeNumeric, if_pos hnil] at h; cases h
  · rw [imputeNumeric, if_neg hnil] at h
    refine ⟨fun hx => by simp [hx] at hnil, ?_⟩
    cases hic : imputeCols imputeMeanCol sel t.cols with
    | error e => rw [hic] at h; cases h
    | ok cols' =>
      rw [hic] at h
      simp only [Except.map] at h
      obtain rfl := (Except.ok.inj h).symm
      rfl

theorem imputeCategorical_ok_cols (t : Table) (sel : List String) (t1 : Table)
    (h : imputeCategorical t sel = Except.ok t1) :
    sel ≠ [] ∧ imputeCols imputeModeCol sel t.cols = Except.ok t1.cols := by
  by_cases hnil : sel.isEmpty = true
  · rw [imputeCategorical, if_pos hnil] at h; cases h
  · rw [imputeCategorical, if_neg hnil] at h
    refine ⟨fun hx => by simp [hx] at hnil, ?_⟩
    cases hic : imputeCols imputeModeCol sel t.cols with
    | error e => rw [hic] at h; cases h
    | ok cols' =>
      rw [hic] at h
      simp only [Except.map] at h
      obtain rfl := (Except.ok.inj h).symm
      rfl

theorem coerceCells_of_nums (l : List (Option ℚ)) (m : ℚ) :
    coerceCells (l.map (fun p => some (Val.num (p.getD m)))) =
      Except.ok (l.map (fun p => some (p.getD m))) := by
  induction l with
  | nil => rfl
  | cons p rest ih =>
    simp only [List.map_cons, coerceCells, coerceStrict, ih, exceptBind_ok]

theorem imputeMeanCol_name (c c' : Column) (h : imputeMeanCol c = Except.ok c') :
    c'.name = c.name := by
  simp only [imputeMeanCol] at h
  cases hp : coerceCells c.cells with
  | error e => rw [hp, exceptBind_error] at h; cases h
  | ok parsed =>
    rw [hp, exceptBind_ok] at h
    split at h
    · cases h
    · obtain rfl := (Except.ok.inj h).symm
      rfl

theorem imputeModeCol_name (c c' : Column) (h : imputeModeCol c = Except.ok c') :
    c'.name = c.name := by
  unfold imputeModeCol at h
  cases hm : pickMode (c.cells.filterMap id) with
  | none => rw [hm] at h; cases h
  | some m =>
    rw [hm] at h
    obtain rfl := (Except.ok.inj h).symm
    rfl

theorem imputeMeanCol_idem (c c' : Column) (h : imputeMeanCol c = Except.ok c') :
    imputeMeanCol c' = Except.ok c' := by
  simp only [imputeMeanCol] at h ⊢
  cases hp : coerceCells c.cells with
  | error e => rw [hp, exceptBind_error] at h; cases h
  | ok parsed =>
    rw [hp, exceptBind_ok] at h
    by_cases hemp : (parsed.filterMap id).isEmpty = true
    · rw [if_pos hemp] at h; cases h
    · rw [if_neg hemp] at h
      obtain rfl := (Except.ok.inj h).symm
      rw [coerceCells_of_nums, exceptBind_ok]
      have hfm : ((parsed.map (fun p =>
          some (p.getD ((parsed.filterMap id).sum / ((parsed.filterMap id).length : ℚ))))).filterMap id)
          = parsed.map (fun p =>
              p.getD ((parsed.filterMap id).sum / ((parsed.filterMap id).length : ℚ))) := by
        rw [List.filterMap_map]
        exact List.filterMap_eq_map _ ▸ rfl
      rw [hfm]
      have hne : parsed ≠ [] := by
        intro hnil
        rw [hnil] at hemp
        exact hemp rfl
      rw [if_neg (by simpa using hne)]
      simp [List.map_map, Function.comp]

theorem pickBetter_some (l : List Val) (xs : List Val) (w : Val) :
    ∃ v, xs.foldl (pickBetter l) (some w) = some v := by
  induction xs generalizing w with
  | nil => exact ⟨w, rfl⟩
  | cons x rest ih =>
    rw [List.foldl_cons]
    cases hpb : pickBetter l (some w) x with
    | none =>
      exfalso
      have hpb2 : (if List.count x l > List.count w l ∨
          (List.count x l = List.count w l ∧ valLE x w = true) then some x else some w)
          = (none : Option Val) := hpb
      split at hpb2 <;> cases hpb2
    | some u =>
      exact ih u

theorem pickMode_isSome (l : List Val) (h : l ≠ []) : ∃ v, pickMode l = some v := by
  unfold pickMode
  cases hd : l.dedup with
  | nil => exact absurd ((List.dedup_eq_nil l).mp hd) h
  | cons v vs =>
    rw [List.foldl_cons]
    have hone : pickBetter l none v = some v := rfl
    rw [hone]
    exact pickBetter_some l vs v

theorem imputeModeCol_idem (c c' : Column) (h : imputeModeCol c = Except.ok c') :
    imputeModeCol c' = Except.ok c' := by
  unfold imputeModeCol at h ⊢
  cases hm : pickMode (c.cells.filterMap id) with
  | none => rw [hm] at h; cases h
  | some m =>
    rw [hm] at h
    obtain rfl := (Except.ok.inj h).symm
    have hfm : ((c.cells.map (fun cell => some (cell.getD m))).filterMap id)
        = c.cells.map (fun cell => cell.getD m) := by
      rw [List.filterMap_map]
      exact List.filterMap_eq_map _ ▸ rfl
    have hne : c.cells ≠ [] := by
      intro hnil
      rw [hnil] at hm
      cases hm
    obtain ⟨m', hm'⟩ := pickMode_isSome (c.cells.map (fun cell => cell.getD m))
      (by simpa using hne)
    rw [hfm, hm']
    simp [List.map_map, Function.comp]

/-- Counterexample for C9 as frozen: the first alignment run on `cexT`
succeeds, mutating the source into `cexT2` (the four missing cells of `v`
are filled in place with the most frequent value 1) and returning the
matrix `cexM`; but a second run on the table as the first run left it
produces no matrix at all — the filled column now coerces fully to
numeric with 16 distinct values, its classification flips to numeric, the
categorical bucket becomes empty and imputation aborts. -/
theorem align_rerun_counterexample :
    preprocess_dataset cexT ["x", "v_1"] = Except.ok (cexT2, cexM) ∧
      (preprocess_dataset cexT2 ["x", "v_1"]).isOk = false := by
  constructor
  · with_unfolding_all rfl
  · with_unfolding_all rfl

/-- **C9** (amended): alignment is deterministic — as a pure function of
table and schema, re-running it on the same original input reproduces the
same result — and re-running it on the source table as the first run left
it reproduces the first matrix provided the Type Classifier classifies
the mutated table exactly as it classified the original (the
counterexample shows this proviso is necessary: in-place imputation can
flip an object column from categorical to numeric). -/
theorem align_rerun_stable (t : Table) (mc : List String) (tm : Table × Table)
    (hnd : t.names.Nodup)
    (h : preprocess_dataset t mc = Except.ok tm)
    (hstable : detect_column_types tm.1.cols = detect_column_types t.cols) :
    preprocess_dataset tm.1 mc = Except.ok (tm.1, tm.2) := by
  obtain ⟨t1, hN, hC, hsel⟩ :=
    preprocessBody_ok_parts t mc tm (preprocess_ok_body t mc tm h)
  obtain ⟨hNne, hNcols⟩ := imputeNumeric_ok_cols t _ t1 hN
  obtain ⟨hCne, hCcols⟩ := imputeCategorical_ok_cols t1 _ tm.1 hC
  have hdisj : (detect_column_types t.cols).numeric.Disjoint
      (detect_column_types t.cols).categorical := by
    have h2 := (detect_append_perm t.cols).nodup_iff.mpr hnd
    exact (List.nodup_append.mp h2).2.2
  have hcols : ∀ c ∈ tm.1.cols,
      (c.name ∈ (detect_column_types t.cols).numeric → imputeMeanCol c = Except.ok c) ∧
      (c.name ∈ (detect_column_types t.cols).categorical → imputeModeCol c = Except.ok c) := by
    intro c hc
    obtain ⟨c1, hc1, hrel⟩ := imputeCols_ok_mem _ _ _ _ hCcols c hc
    rcases hrel with ⟨hmem1, hf1⟩ | ⟨hmem1, hceq⟩
    · have hname : c.name = c1.name := imputeModeCol_name c1 c hf1
      constructor
      · intro hn
        exact absurd (hname ▸ hmem1) (hdisj hn)
      · intro _
        exact imputeModeCol_idem c1 c hf1
    · subst hceq
      obtain ⟨c0, hc0, hrel0⟩ := imputeCols_ok_mem _ _ _ _ hNcols c hc1
      rcases hrel0 with ⟨hmem0, hf0⟩ | ⟨hmem0, hceq0⟩
      · constructor
        · intro _
          exact imputeMeanCol_idem c0 c hf0
        · intro hn
          exact absurd hn hmem1
      · subst hceq0
        constructor
        · intro hn
          exact absurd hn hmem0
        · intro hn
          exact absurd hn hmem1
  have hN2 : imputeNumeric tm.1 (detect_column_types t.cols).numeric =
      Except.ok tm.1 := by
    rw [imputeNumeric, if_neg (by simpa using hNne),
      imputeCols_diag _ _ _ (fun c hc hm => (hcols c hc).1 hm)]
    rfl
  have hC2 : imputeCategorical tm.1 (detect_column_types t.cols).categorical =
      Except.ok tm.1 := by
    rw [imputeCategorical, if_neg (by simpa using hCne),
      imputeCols_diag _ _ _ (fun c hc hm => (hcols c hc).2 hm)]
    rfl
  have hbody : preprocessBody tm.1 mc = Except.ok (tm.1, tm.2) := by
    simp only [preprocessBody, hstable]
    rw [hN2, exceptBind_ok, hC2, exceptBind_ok, ← hsel]
  rw [preprocess_dataset, hbody]

/-- Witness for the amended C9: on the example table the first run leaves
a table classified identically (its imputation changes nothing), and the
second run reproduces the matrix. -/
theorem align_rerun_stable_witness :
    preprocess_dataset exT ["age", "city_A", "city_B"] = Except.ok (exT, exM) :=
  align_rerun_stable exT ["age", "city_A", "city_B"] (exT, exM)
    (by with_unfolding_all decide) (by with_unfolding_all rfl) rfl
